import Mathlib

/-!
Formal model of the duck_chat session engine (`duck_chat/api.py`).

The model is a shallow embedding: the `DuckChat` methods become pure Lean
functions over an explicit `Session` state (the `vqd` token list and the
conversation history's message list), with the network modelled as explicit
response values supplied to each operation.  Python byte strings are modelled
as Lean `String`/`List Char` (the service traffic is ASCII), Python ints as
`Int`/`Nat`, and decoded JSON as the `Json` inductive below.  JSON numbers are
modelled as integers only (the service records at issue carry integer `status`
fields); a fractional literal is treated as a decode failure, outside the
modelled domain.
-/

namespace DuckChatModel

/-- Decoded JSON values, as produced by `msgspec.json.Decoder` (numbers
restricted to integers, see the file header). -/
inductive Json where
  | null
  | bool (b : Bool)
  | num (n : Int)
  | str (s : String)
  | arr (xs : List Json)
  | obj (fields : List (String × Json))

/-- Python `dict.get(k)` on a decoded object: the value at key `k` (last
occurrence wins, matching dict construction order), `none` when the key is
absent or the value is not an object. -/
def jget : Json → String → Option Json
  | .obj fs, k => ((fs.reverse).find? (fun p => p.1 == k)).map (fun p => p.2)
  | _, _ => none

/-- Python `dict.get(k, d)`: `jget` with a default. -/
def jgetD (j : Json) (k : String) (d : Json) : Json := (jget j k).getD d

/-- Python truthiness of a decoded JSON value. -/
def jTruthy : Json → Bool
  | .null => false
  | .bool b => b
  | .num n => n != 0
  | .str s => s != ""
  | .arr xs => !xs.isEmpty
  | .obj fs => !fs.isEmpty

/-- Is the value the JSON string `s`?  (Python `x == s` for a string `s`.) -/
def jStrIs (j : Json) (s : String) : Bool :=
  match j with
  | .str t => t == s
  | _ => false

/-- Python `str(...)` of a decoded JSON value (used by `get_answer` when an
error record lacks a `type`; `repr`-style rendering of dicts and lists). -/
def pyRepr : Json → String
  | .null => "None"
  | .bool b => if b then "True" else "False"
  | .num n => toString n
  | .str s => "\x27" ++ s ++ "\x27"
  | .arr xs => "[" ++ String.intercalate ", " (xs.attach.map (fun x => pyRepr x.1)) ++ "]"
  | .obj fs =>
      "\x7b" ++
        String.intercalate ", "
          (fs.attach.map (fun p => "\x27" ++ p.1.1 ++ "\x27: " ++ pyRepr p.1.2)) ++
      "\x7d"
decreasing_by
  · have h := List.sizeOf_lt_of_mem x.2
    simp only [Json.arr.sizeOf_spec]
    omega
  · have h := List.sizeOf_lt_of_mem p.2
    have h2 : sizeOf p.1.2 < sizeOf p.1 := by
      rcases p.1 with ⟨a, b⟩
      simp only [Prod.mk.sizeOf_spec]
      omega
    simp only [Json.obj.sizeOf_spec]
    omega

/-- JSON whitespace. -/
def isWsChar (c : Char) : Bool := c == ' ' || c == '\n' || c == '\t' || c == '\r'

/-- Hexadecimal digit value, for `\uXXXX` escapes. -/
def hexVal? (c : Char) : Option Nat :=
  if c.isDigit then some (c.toNat - 48)
  else if 'a' ≤ c && c ≤ 'f' then some (c.toNat - 87)
  else if 'A' ≤ c && c ≤ 'F' then some (c.toNat - 55)
  else none

/-- Parse the body of a JSON string literal (after the opening quote),
returning the string and the input after the closing quote. -/
def parseStrAux : Nat → List Char → List Char → Option (String × List Char)
  | 0, _, _ => none
  | _ + 1, _, [] => none
  | fuel + 1, acc, c :: cs =>
    if c == '"' then some (String.mk acc.reverse, cs)
    else if c == '\\' then
      match cs with
      | [] => none
      | e :: cs' =>
        if e == 'n' then parseStrAux fuel ('\n' :: acc) cs'
        else if e == 't' then parseStrAux fuel ('\t' :: acc) cs'
        else if e == 'r' then parseStrAux fuel ('\r' :: acc) cs'
        else if e == 'b' then parseStrAux fuel (Char.ofNat 8 :: acc) cs'
        else if e == 'f' then parseStrAux fuel (Char.ofNat 12 :: acc) cs'
        else if e == '"' || e == '\\' || e == '/' then parseStrAux fuel (e :: acc) cs'
        else if e == 'u' then
          match cs' with
          | h1 :: h2 :: h3 :: h4 :: cs'' =>
            match hexVal? h1, hexVal? h2, hexVal? h3, hexVal? h4 with
            | some a, some b, some c2, some d =>
                parseStrAux fuel (Char.ofNat (((a * 16 + b) * 16 + c2) * 16 + d) :: acc) cs''
            | _, _, _, _ => none
          | _ => none
        else none
    else parseStrAux fuel (c :: acc) cs

/-- Consume a run of decimal digits, accumulating their value. -/
def digitsVal : List Char → Nat → Nat × List Char
  | [], acc => (acc, [])
  | c :: cs, acc =>
    if c.isDigit then digitsVal cs (acc * 10 + (c.toNat - 48)) else (acc, c :: cs)

mutual

/-- Parse one JSON value (fuel-based recursive descent). -/
def parseVal : Nat → List Char → Option (Json × List Char)
  | 0, _ => none
  | fuel + 1, s =>
    match s.dropWhile isWsChar with
    | [] => none
    | c :: cs =>
      if c == '"' then
        match parseStrAux (cs.length + 1) [] cs with
        | some (st, r) => some (.str st, r)
        | none => none
      else if c == '[' then
        match cs.dropWhile isWsChar with
        | ']' :: r => some (.arr [], r)
        | cs' =>
          match parseArrItems fuel cs' with
          | some (xs, r) => some (.arr xs, r)
          | none => none
      else if c == '\x7b' then
        match cs.dropWhile isWsChar with
        | '\x7d' :: r => some (.obj [], r)
        | cs' =>
          match parseObjFields fuel cs' with
          | some (fs, r) => some (.obj fs, r)
          | none => none
      else if ['t', 'r', 'u', 'e'].isPrefixOf (c :: cs) then
        some (.bool true, (c :: cs).drop 4)
      else if ['f', 'a', 'l', 's', 'e'].isPrefixOf (c :: cs) then
        some (.bool false, (c :: cs).drop 5)
      else if ['n', 'u', 'l', 'l'].isPrefixOf (c :: cs) then
        some (.null, (c :: cs).drop 4)
      else if c == '-' then
        match cs with
        | d :: _ =>
          if d.isDigit then
            let (n, r) := digitsVal cs 0
            match r with
            | '.' :: _ => none
            | 'e' :: _ => none
            | 'E' :: _ => none
            | _ => some (.num (-(n : Int)), r)
          else none
        | [] => none
      else if c.isDigit then
        let (n, r) := digitsVal (c :: cs) 0
        match r with
        | '.' :: _ => none
        | 'e' :: _ => none
        | 'E' :: _ => none
        | _ => some (.num (n : Int), r)
      else none

/-- Parse the items of a non-empty JSON array (after `[` and leading
whitespace), up to and including the closing `]`. -/
def parseArrItems : Nat → List Char → Option (List Json × List Char)
  | 0, _ => none
  | fuel + 1, s =>
    match parseVal fuel s with
    | none => none
    | some (v, r) =>
      match r.dropWhile isWsChar with
      | ',' :: r2 =>
        match parseArrItems fuel r2 with
        | some (xs, r3) => some (v :: xs, r3)
        | none => none
      | ']' :: r2 => some ([v], r2)
      | _ => none

/-- Parse the fields of a non-empty JSON object (after the opening brace and
leading whitespace), up to and including the closing brace. -/
def parseObjFields : Nat → List Char → Option (List (String × Json) × List Char)
  | 0, _ => none
  | fuel + 1, s =>
    match s with
    | '"' :: ks =>
      match parseStrAux (ks.length + 1) [] ks with
      | none => none
      | some (k, r) =>
        match r.dropWhile isWsChar with
        | ':' :: r2 =>
          match parseVal fuel r2 with
          | none => none
          | some (v, r3) =>
            match r3.dropWhile isWsChar with
            | ',' :: r4 =>
              match (r4.dropWhile isWsChar) with
              | r5 =>
                match parseObjFields fuel r5 with
                | some (fs, r6) => some ((k, v) :: fs, r6)
                | none => none
            | '\x7d' :: r4 => some ([(k, v)], r4)
            | _ => none
        | _ => none
    | _ => none

end

/-- Decode a full JSON document from characters (`msgspec` decoding: one value,
then nothing but whitespace). -/
def decodeJsonL (cs : List Char) : Option Json :=
  match parseVal (2 * cs.length + 2) cs with
  | some (j, r) => if (r.dropWhile isWsChar).isEmpty then some j else none
  | none => none

/-- Decode a full JSON document from a string. -/
def decodeJson (s : String) : Option Json := decodeJsonL s.toList

/-! ## Python byte-string helpers used by the buffered framer

Python's `bytes.lstrip(chars)` / `bytes.rstrip(chars)` strip any run of the
*characters* of `chars`, and `bytes.split(sep)` splits on every occurrence of
the separator, keeping empty parts. -/

/-- Python `lstrip(set)`: drop leading characters belonging to `set`. -/
def lstripSet (set : List Char) (s : List Char) : List Char :=
  s.dropWhile (fun c => set.contains c)

/-- Python `rstrip(set)`: drop trailing characters belonging to `set`. -/
def rstripSet (set : List Char) (s : List Char) : List Char :=
  (s.reverse.dropWhile (fun c => set.contains c)).reverse

/-- Python `s.split(sep)` for a non-empty separator, fuel-based. -/
def splitOnSubAux (sep : List Char) : Nat → List Char → List Char → List (List Char)
  | 0, acc, rest => [acc.reverse ++ rest]
  | _ + 1, acc, [] => [acc.reverse]
  | fuel + 1, acc, c :: cs =>
    if sep.isPrefixOf (c :: cs) then
      acc.reverse :: splitOnSubAux sep fuel [] ((c :: cs).drop sep.length)
    else
      splitOnSubAux sep fuel (c :: acc) cs

/-- Python `s.split(sep)` (non-overlapping, left to right, empties kept). -/
def splitOnSub (sep s : List Char) : List (List Char) :=
  splitOnSubAux sep (s.length + 1) [] s

/-- Python substring test `needle in hay`. -/
def hasSubList (n : List Char) : List Char → Bool
  | [] => n.isEmpty
  | c :: t => n.isPrefixOf (c :: t) || hasSubList n t

/-! ## Data model: session state and errors -/

/-- Message role (`duck_chat.models.Role`): conversations alternate
user/assistant. -/
inductive Role where
  | user
  | assistant
deriving DecidableEq

/-- The role expected after the current one in an alternating transcript. -/
def Role.other : Role → Role
  | .user => .assistant
  | .assistant => .user

/-- One transcript entry (`duck_chat.models.Message`). -/
structure Message where
  role : Role
  content : String
deriving DecidableEq

/-- The mutable state of one `DuckChat` instance: the token ledger
(`self.vqd`) and the conversation history's messages
(`self.history.messages`); the selected model identifier never changes and is
omitted. -/
structure Session where
  vqd : List String
  messages : List Message
deriving DecidableEq

/-- Does the message list strictly alternate, expecting `r` first? -/
def alternatingFrom : Role → List Message → Bool
  | _, [] => true
  | r, m :: ms => if m.role = r then alternatingFrom r.other ms else false

/-- Strict user/assistant alternation starting with a user message. -/
def alternating (ms : List Message) : Bool := alternatingFrom .user ms

/-- Python exceptions surfaced by the modelled operations.  `ratelimit`,
`conversationLimit` and `duckChat` are the library's exception classes
(`RatelimitException`, `ConversationLimitException`, `DuckChatException`),
carrying the Python value they were raised with; `generatorExit` is the
`GeneratorExit` raised by `reask_question_stream`; the remaining constructors
are the uncaught Python runtime errors reachable in the code
(`self.vqd[-1]` on an empty list, `.get` on a non-dict record,
`"".join` over non-strings). -/
inductive PyError where
  | ratelimit (v : Json)
  | conversationLimit (v : Json)
  | duckChat (v : Json)
  | generatorExit (msg : String)
  | attributeError
  | typeError
  | indexError

/-! ## Buffered framer and turn processing (`get_answer`) -/

/-- One HTTP response to the turn POST: status code, raw body, and the
optional `x-vqd-4` response header. -/
structure Response where
  status : Nat
  body : String
  vqdHeader : Option String

/-- The buffered framer of `get_answer` (lines 95-101 of `api.py`):
`lstrip(b"data: ")`, `rstrip(b"\n\ndata: [DONE][LIMIT_CONVERSATION]\n")`
(both character-set strips), split on `b"\n\ndata: "`, join with commas and
wrap in a JSON array. -/
def frameBody (res : String) : String :=
  let stripped :=
    rstripSet "\n\ndata: [DONE][LIMIT_CONVERSATION]\n".toList
      (lstripSet "data: ".toList res.toList)
  let parts := splitOnSub "\n\ndata: ".toList stripped
  "[" ++ String.intercalate "," (parts.map (fun l => String.mk l)) ++ "]"

/-- Did the record come with `action == "error"`?  (`x.get("action") == "error"`.) -/
def isErrAction (x : Json) : Bool := jStrIs (jgetD x "action" .null) "error"

/-- `err_message = x.get("type", "") or str(x)` (Python truthiness). -/
def errVal (x : Json) : Json :=
  let t := jgetD x "type" (.str "")
  if jTruthy t then t else .str (pyRepr x)

/-- `x.get("status") == 429`. -/
def statusIs429 (x : Json) : Bool :=
  match jget x "status" with
  | some (.num n) => n == 429
  | _ => false

/-- Result of the record loop in `get_answer`: collected message fields, a
soft block (`ERR_BN_LIMIT`), or a raised exception. -/
inductive LoopResult where
  | collected (pieces : List Json)
  | soft
  | fail (e : PyError)

/-- The record loop of `get_answer` (lines 104-118): accumulate
`x.get("message", "")` for content records; classify `action: error` records
(soft block on `ERR_BN_LIMIT`, `ConversationLimitException` /
`RatelimitException` under embedded status 429, generic `DuckChatException`
otherwise).  A non-dict record makes Python's `x.get` raise `AttributeError`. -/
def processRecords : List Json → List Json → LoopResult
  | [], acc => .collected acc.reverse
  | x :: rest, acc =>
    match x with
    | .obj _ =>
      if isErrAction x then
        let em := errVal x
        if jStrIs em "ERR_BN_LIMIT" then .soft
        else if statusIs429 x then
          if jStrIs em "ERR_CONVERSATION_LIMIT" then .fail (.conversationLimit em)
          else .fail (.ratelimit em)
        else .fail (.duckChat em)
      else processRecords rest (jgetD x "message" (.str "") :: acc)
    | _ => .fail .attributeError

/-- `"".join(pieces)`: succeeds only when every piece is a string
(otherwise Python raises `TypeError`). -/
def joinStrs : List Json → Option String
  | [] => some ""
  | .str s :: rest => (joinStrs rest).map (fun r => s ++ r)
  | _ :: _ => none

/-- Outcome of one attempt of the `get_answer` retry loop. -/
inductive StepOutcome where
  | success (answer : String) (tok : String)
  | softBlock
  | failure (e : PyError)

/-- One attempt of `get_answer` on a given response: transport 429 check,
framing + decode, record loop, and on full success the final answer together
with the token taken from the `x-vqd-4` response header (empty string when
the header is absent). -/
def getAnswerStep (resp : Response) : StepOutcome :=
  if resp.status == 429 then .failure (.ratelimit (.str resp.body))
  else
    match decodeJson (frameBody resp.body) with
    | some (.arr xs) =>
      match processRecords xs [] with
      | .collected pieces =>
        match joinStrs pieces with
        | some a => .success a (resp.vqdHeader.getD "")
        | none => .failure .typeError
      | .soft => .softBlock
      | .fail e => .failure e
    | _ => .failure (.duckChat (.str ("Couldn\x27t parse body=" ++ resp.body)))

/-- Result of the whole `get_answer` retry loop. -/
inductive TurnResult where
  | success (answer : String) (tok : String)
  | failure (e : PyError)

/-- The `while attempt < self.max_retries` loop of `get_answer`, with the
environment supplying the response of each attempt; counts down the remaining
attempts, raising `DuckChatException("ERR_BN_LIMIT after ... attempts")` when
they run out. -/
def getAnswerLoop (maxRetries : Nat) (env : Nat → Response) : Nat → TurnResult
  | 0 =>
    .failure (.duckChat (.str ("ERR_BN_LIMIT after " ++ toString maxRetries ++ " attempts")))
  | r + 1 =>
    match getAnswerStep (env (maxRetries - (r + 1))) with
    | .success a t => .success a t
    | .softBlock => getAnswerLoop maxRetries env r
    | .failure e => .failure e

/-- The retry loop of `get_answer`, started with all attempts remaining. -/
def getAnswerResult (maxRetries : Nat) (env : Nat → Response) : TurnResult :=
  getAnswerLoop maxRetries env maxRetries

/-- `get_answer` as a state transformer: reads `self.vqd[-1]` (an
`IndexError` if the ledger is empty), runs the retry loop, and on success
appends the newly issued token to the ledger. -/
def get_answer (s : Session) (maxRetries : Nat) (env : Nat → Response) :
    Session × Except PyError String :=
  match s.vqd.getLast? with
  | none => (s, .error .indexError)
  | some _ =>
    match getAnswerResult maxRetries env with
    | .success a t => ({ s with vqd := s.vqd ++ [t] }, .ok a)
    | .failure e => (s, .error e)

/-! ## Handshake (`get_vqd`) -/

/-- One HTTP response to the handshake GET. -/
structure HandshakeResponse where
  status : Nat
  body : String
  vqdHeader : Option String

/-- `get_vqd` (lines 127-145): on 429, decode the body and raise
`RatelimitException` with its `type` field (a `DuckChatException` with the raw
body when the body is not a JSON object); otherwise append the `x-vqd-4`
header to the ledger, raising `DuckChatException("No x-vqd-4")` when the
header is absent. -/
def get_vqd (s : Session) (h : HandshakeResponse) : Session × Except PyError Unit :=
  if h.status == 429 then
    match decodeJson h.body with
    | some (.obj fs) => (s, .error (.ratelimit (jgetD (.obj fs) "type" (.str ""))))
    | _ => (s, .error (.duckChat (.str h.body)))
  else
    match h.vqdHeader with
    | some t => ({ s with vqd := s.vqd ++ [t] }, .ok ())
    | none => (s, .error (.duckChat (.str "No x-vqd-4")))

/-! ## History mutation and the ask/reask operations -/

/-- Modelled from the spec: `History.add_input` (class `History` in
`duck_chat/models.py`, not part of the sources) appends a user `Message`
with the given text to the transcript. -/
def add_input (s : Session) (text : String) : Session :=
  { s with messages := s.messages ++ [⟨.user, text⟩] }

/-- Modelled from the spec: `History.add_answer` (class `History` in
`duck_chat/models.py`, not part of the sources) appends an assistant
`Message` with the given text to the transcript. -/
def add_answer (s : Session) (text : String) : Session :=
  { s with messages := s.messages ++ [⟨.assistant, text⟩] }

/-- The shared tail of every buffered turn: run `get_answer`, then
`self.history.add_answer(message)` on success. -/
def finishTurn (s : Session) (maxRetries : Nat) (env : Nat → Response) :
    Session × Except PyError String :=
  match get_answer s maxRetries env with
  | (s', .ok m) => (add_answer s' m, .ok m)
  | (s', .error e) => (s', .error e)

/-- `ask_question` (lines 176-183): ensure a token (handshake only when the
ledger is empty), `add_input`, then the buffered turn. -/
def ask_question (s : Session) (query : String) (maxRetries : Nat)
    (hs : HandshakeResponse) (env : Nat → Response) : Session × Except PyError String :=
  if s.vqd.isEmpty then
    match get_vqd s hs with
    | (s1, .error e) => (s1, .error e)
    | (s1, .ok ()) => finishTurn (add_input s1 query) maxRetries env
  else
    finishTurn (add_input s query) maxRetries env

/-- Python `l[:n]` for an `Int` bound: a negative bound counts from the end
(`max 0 (len + n)`), clamped at both ends. -/
def pySliceTo {α : Type} (l : List α) (n : Int) : List α :=
  if 0 ≤ n then l.take n.toNat
  else l.take (((l.length : Int) + n).toNat)

/-- The index adjustment at the top of both reask variants:
`if num >= len(self.vqd): num = len(self.vqd) - 1`. -/
def adjustNum (vqdLen : Nat) (num : Int) : Int :=
  if (vqdLen : Int) ≤ num then (vqdLen : Int) - 1 else num

/-- The ledger rewind performed by both reask variants:
`self.vqd = self.vqd[:num]` after the index adjustment. -/
def rewindVqd (vqd : List String) (num : Int) : List String :=
  pySliceTo vqd (adjustNum vqd.length num)

/-- `reask_question` (lines 185-200): adjust the index, slice the ledger,
return `""` on an empty history, otherwise re-handshake and trim the history
to its first message when the ledger became empty (else slice the history to
`num * 2 - 1` messages), and run the buffered turn. -/
def reask_question (s : Session) (num : Int) (hs : HandshakeResponse)
    (maxRetries : Nat) (env : Nat → Response) : Session × Except PyError String :=
  let num1 := adjustNum s.vqd.length num
  let s1 : Session := { s with vqd := rewindVqd s.vqd num }
  match s1.messages with
  | [] => (s1, .ok "")
  | m0 :: _ =>
    if s1.vqd.isEmpty then
      match get_vqd s1 hs with
      | (s2, .error e) => (s2, .error e)
      | (s2, .ok ()) => finishTurn { s2 with messages := [m0] } maxRetries env
    else
      let num2 := min num1 (s1.vqd.length : Int)
      finishTurn { s1 with messages := pySliceTo s1.messages (num2 * 2 - 1) }
        maxRetries env

/-! ## Incremental (streaming) framer and the streaming operations -/

/-- One HTTP response to the turn POST in streaming mode: status, the text
used for a 429 error, the body as transport lines, and the `x-vqd-4` header. -/
structure StreamResponse where
  status : Nat
  text : String
  lines : List (List Char)
  vqdHeader : Option String

/-- What one transport line contributes in `stream_answer` (lines 161-171). -/
inductive StreamEv where
  | yieldVal (v : Json)
  | stop
  | fail (msg : String)
  | skip

/-- Per-line behaviour of `stream_answer`: keep only lines prefixed
`data: `, stop on a `[DONE]` chunk, decode the chunk as one JSON record and
yield its `message` value when present and truthy.  A chunk that decodes but
is not a dict makes `"message" in data` / `data["message"]` raise a
`TypeError` (substring test on a string, membership on a list, non-iterable
otherwise); the raised message is a stand-in for CPython's wording. -/
def processLine (line : List Char) : StreamEv :=
  if "data: ".toList.isPrefixOf line then
    let chunk := line.drop 6
    if "[DONE]".toList.isPrefixOf chunk then .stop
    else
      match decodeJsonL chunk with
      | none => .fail ("Couldn\x27t parse body=" ++ String.mk chunk)
      | some d =>
        match d with
        | .obj _ =>
          match jget d "message" with
          | some v => if jTruthy v then .yieldVal v else .skip
          | none => .skip
        | .str t =>
          if hasSubList "message".toList t.toList then .fail "TypeError: string indices"
          else .skip
        | .arr xs =>
          if xs.any (fun e => jStrIs e "message") then .fail "TypeError: list indices"
          else .skip
        | _ => .fail "TypeError: argument not iterable"
  else .skip

/-- Run the line loop of `stream_answer`: the values yielded so far, and the
message of the exception that aborted the stream, if any. -/
def runLines : List (List Char) → List Json → List Json × Option String
  | [], acc => (acc.reverse, none)
  | l :: ls, acc =>
    match processLine l with
    | .skip => runLines ls acc
    | .stop => (acc.reverse, none)
    | .yieldVal v => runLines ls (v :: acc)
    | .fail m => (acc.reverse, some m)

/-- `stream_answer` (lines 147-174) as a state transformer: transport 429
check, the line loop (any exception re-wrapped as
`DuckChatException("Error while streaming data: ...")`), and on normal
completion the `x-vqd-4` header (or `""`) appended to the ledger.  The
returned list holds the values yielded to the caller before the outcome. -/
def stream_answer (s : Session) (resp : StreamResponse) :
    Session × List Json × Except PyError Unit :=
  if resp.status == 429 then (s, [], .error (.ratelimit (.str resp.text)))
  else
    match runLines resp.lines [] with
    | (ys, some m) =>
        (s, ys, .error (.duckChat (.str ("Error while streaming data: " ++ m))))
    | (ys, none) =>
        ({ s with vqd := s.vqd ++ [resp.vqdHeader.getD ""] }, ys, .ok ())

/-- The shared tail of every streaming turn: run `stream_answer`, collect the
yielded fragments, and `add_answer("".join(message_list))` on completion. -/
def finishStream (s : Session) (resp : StreamResponse) :
    Session × List Json × Except PyError Unit :=
  match stream_answer s resp with
  | (s', ys, .ok ()) =>
    match joinStrs ys with
    | some m => (add_answer s' m, ys, .ok ())
    | none => (s', ys, .error .typeError)
  | (s', ys, .error e) => (s', ys, .error e)

/-- `reask_question_stream` (lines 213-230): same rewind as `reask_question`,
but an empty history raises `GeneratorExit("There is no history messages")`,
and the turn is the streaming one. -/
def reask_question_stream (s : Session) (num : Int) (hs : HandshakeResponse)
    (resp : StreamResponse) : Session × List Json × Except PyError Unit :=
  let num1 := adjustNum s.vqd.length num
  let s1 : Session := { s with vqd := rewindVqd s.vqd num }
  match s1.messages with
  | [] => (s1, [], .error (.generatorExit "There is no history messages"))
  | m0 :: _ =>
    if s1.vqd.isEmpty then
      match get_vqd s1 hs with
      | (s2, .error e) => (s2, [], .error e)
      | (s2, .ok ()) => finishStream { s2 with messages := [m0] } resp
    else
      let num2 := min num1 (s1.vqd.length : Int)
      finishStream { s1 with messages := pySliceTo s1.messages (num2 * 2 - 1) } resp

/-- The role expected at position `n` of an alternating transcript whose
first expected role is `r`. -/
def roleAfter : Role → Nat → Role
  | r, 0 => r
  | r, n + 1 => roleAfter r.other n

/-! ## General lemmas about the model -/

theorem Role.other_other (r : Role) : r.other.other = r := by
  cases r <;> rfl

theorem roleAfter_two_mul (r : Role) : ∀ k, roleAfter r (2 * k) = r := by
  intro k
  induction k with
  | zero => rfl
  | succ k ih =>
    have h2 : 2 * (k + 1) = 2 * k + 1 + 1 := by ring
    rw [h2]
    show roleAfter r.other.other (2 * k) = r
    rw [Role.other_other]
    exact ih

theorem alternatingFrom_append (ms : List Message) :
    ∀ (r : Role) (ms' : List Message),
      alternatingFrom r (ms ++ ms') =
        (alternatingFrom r ms && alternatingFrom (roleAfter r ms.length) ms') := by
  induction ms with
  | nil => intro r ms'; simp [alternatingFrom, roleAfter]
  | cons m ms ih =>
    intro r ms'
    by_cases h : m.role = r
    · simp only [List.cons_append, alternatingFrom, h, if_true, List.length_cons]
      have hr : roleAfter r (ms.length + 1) = roleAfter r.other ms.length := rfl
      rw [hr]
      exact ih r.other ms'
    · simp [alternatingFrom, h]

theorem alternating_append_pair {ms : List Message} {q a : String}
    (halt : alternating ms = true) (heven : ms.length % 2 = 0) :
    alternating (ms ++ [⟨.user, q⟩, ⟨.assistant, a⟩]) = true := by
  unfold alternating at halt ⊢
  rw [alternatingFrom_append, halt]
  obtain ⟨k, hk⟩ : ∃ k, ms.length = 2 * k := ⟨ms.length / 2, by omega⟩
  rw [hk, roleAfter_two_mul]
  rfl

theorem getLast?_append_single {α : Type} (l : List α) (x : α) :
    (l ++ [x]).getLast? = some x := by
  rw [List.getLast?_append_of_ne_nil l (by simp)]
  rfl

theorem getLast?_ne_nil {α : Type} {l : List α} {x : α}
    (h : l.getLast? = some x) : l ≠ [] := by
  intro hnil
  subst hnil
  simp at h

theorem isPrefixOf_append_self (l r : List Char) : l.isPrefixOf (l ++ r) = true := by
  induction l with
  | nil => cases r <;> rfl
  | cons c cs ih => simp [List.isPrefixOf, ih]

theorem rewindVqd_zero (v : List String) : rewindVqd v 0 = [] := by
  unfold rewindVqd adjustNum pySliceTo
  by_cases h : (v.length : Int) ≤ 0
  · have h0 : v.length = 0 := by omega
    have hv : v = [] := List.length_eq_zero.mp h0
    subst hv
    simp
  · rw [if_neg h, if_pos (by omega)]
    simp

theorem get_vqd_ok {s s1 : Session} {h : HandshakeResponse}
    (hok : get_vqd s h = (s1, .ok ())) :
    ∃ t, h.vqdHeader = some t ∧ s1 = { s with vqd := s.vqd ++ [t] } := by
  unfold get_vqd at hok
  split at hok
  · split at hok <;> simp_all
  · split at hok
    · rename_i t ht
      injection hok with h1 h2
      exact ⟨t, ht, h1.symm⟩
    · simp_all

theorem get_answer_ok {s s' : Session} {mr : Nat} {env : Nat → Response} {a : String}
    (hok : get_answer s mr env = (s', .ok a)) :
    ∃ t, getAnswerResult mr env = .success a t ∧
      s' = { s with vqd := s.vqd ++ [t] } ∧ s.vqd ≠ [] := by
  unfold get_answer at hok
  split at hok
  · simp_all
  · rename_i tok hlast
    split at hok
    · rename_i a' t hres
      injection hok with h1 h2
      injection h2 with h3
      exact ⟨t, by rw [hres, h3], h1.symm, getLast?_ne_nil hlast⟩
    · simp_all

theorem get_answer_fail {s : Session} {mr : Nat} {env : Nat → Response} {e : PyError}
    (hv : s.vqd ≠ []) (hres : getAnswerResult mr env = .failure e) :
    get_answer s mr env = (s, .error e) := by
  unfold get_answer
  split
  · rename_i hlast
    exact absurd (List.getLast?_eq_none_iff.mp hlast) hv
  · rw [hres]

theorem finishTurn_ok {s s' : Session} {mr : Nat} {env : Nat → Response} {a : String}
    (hok : finishTurn s mr env = (s', .ok a)) :
    ∃ t, getAnswerResult mr env = .success a t ∧
      s' = add_answer { s with vqd := s.vqd ++ [t] } a ∧ s.vqd ≠ [] := by
  unfold finishTurn at hok
  split at hok
  · rename_i s1 m hget
    injection hok with h1 h2
    injection h2 with h3
    subst h3
    obtain ⟨t, hres, hs1, hvne⟩ := get_answer_ok hget
    exact ⟨t, hres, by rw [← h1, hs1], hvne⟩
  · rename_i s1 e hget
    simp at hok

theorem finishTurn_fail {s : Session} {mr : Nat} {env : Nat → Response} {e : PyError}
    (hv : s.vqd ≠ []) (hres : getAnswerResult mr env = .failure e) :
    finishTurn s mr env = (s, .error e) := by
  unfold finishTurn
  rw [get_answer_fail hv hres]

theorem getAnswerLoop_soft (mr : Nat) (env : Nat → Response)
    (hsoft : ∀ i, i < mr → getAnswerStep (env i) = .softBlock) :
    ∀ k, k ≤ mr →
      getAnswerLoop mr env k =
        .failure (.duckChat (.str ("ERR_BN_LIMIT after " ++ toString mr ++ " attempts"))) := by
  intro k
  induction k with
  | zero => intro _; rfl
  | succ k ih =>
    intro hk
    have hi : mr - (k + 1) < mr := by omega
    simp only [getAnswerLoop, hsoft _ hi]
    exact ih (by omega)

theorem getAnswerLoop_success {mr : Nat} {env : Nat → Response} {a t : String} :
    ∀ {k}, getAnswerLoop mr env k = .success a t →
      ∃ i, getAnswerStep (env i) = .success a t := by
  intro k
  induction k with
  | zero => intro h; simp [getAnswerLoop] at h
  | succ k ih =>
    intro h
    simp only [getAnswerLoop] at h
    split at h
    · rename_i a' t' hstep
      injection h with h1 h2
      subst h1 h2
      exact ⟨mr - (k + 1), hstep⟩
    · exact ih h
    · simp at h

theorem getAnswerStep_success_tok {resp : Response} {a t : String}
    (h : getAnswerStep resp = .success a t) : t = resp.vqdHeader.getD "" := by
  unfold getAnswerStep at h
  split at h
  · simp at h
  · split at h
    · split at h
      · split at h
        · injection h with h1 h2
          exact h2.symm
        · simp at h
      · simp at h
      · simp at h
    · simp at h

theorem stream_answer_ok {t u : Session} {resp : StreamResponse} {ys : List Json}
    (h : stream_answer t resp = (u, ys, .ok ())) :
    u = { t with vqd := t.vqd ++ [resp.vqdHeader.getD ""] } := by
  unfold stream_answer at h
  split at h
  · simp at h
  · split at h
    · simp at h
    · injection h with h1 h2
      exact h1.symm

/-! ## Claim theorems -/

/-- Claim C3: on the exact response body
`data: \x7b"message":"Hi"\x7d\n\ndata: [DONE]\n\ndata: [LIMIT_CONVERSATION]\n`
with HTTP status 200, the buffered framer decodes exactly one record, whose
`message` field is `"Hi"`, and the final answer returned by the turn is
`"Hi"`. -/
theorem buffered_framer_single_record_hi :
    decodeJson
        (frameBody "data: \x7b\"message\":\"Hi\"\x7d\n\ndata: [DONE]\n\ndata: [LIMIT_CONVERSATION]\n") =
      some (.arr [.obj [("message", .str "Hi")]])
  ∧ getAnswerStep
        ⟨200, "data: \x7b\"message\":\"Hi\"\x7d\n\ndata: [DONE]\n\ndata: [LIMIT_CONVERSATION]\n",
          some "tok"⟩ =
      .success "Hi" "tok" :=
  ⟨rfl, rfl⟩

/-- Claim C4: classification of a decoded `action: error` record in the
buffered path: type `ERR_BN_LIMIT` is a retryable soft block (no exception);
an embedded status 429 with type `ERR_CONVERSATION_LIMIT` raises
`ConversationLimitException`; any other embedded status 429 raises
`RatelimitException` with the service-provided message; any other error
record raises a generic `DuckChatException` with the reported type/message. -/
theorem error_record_classification (x : Json) (rest acc : List Json)
    (hact : jget x "action" = some (.str "error")) :
    (jget x "type" = some (.str "ERR_BN_LIMIT") →
        processRecords (x :: rest) acc = .soft)
  ∧ (jget x "status" = some (.num 429) →
      jget x "type" = some (.str "ERR_CONVERSATION_LIMIT") →
        processRecords (x :: rest) acc =
          .fail (.conversationLimit (.str "ERR_CONVERSATION_LIMIT")))
  ∧ (∀ t : String, jget x "status" = some (.num 429) →
      jget x "type" = some (.str t) →
      t ≠ "" → t ≠ "ERR_BN_LIMIT" → t ≠ "ERR_CONVERSATION_LIMIT" →
        processRecords (x :: rest) acc = .fail (.ratelimit (.str t)))
  ∧ (jStrIs (errVal x) "ERR_BN_LIMIT" = false → statusIs429 x = false →
        processRecords (x :: rest) acc = .fail (.duckChat (errVal x))) := by
  obtain ⟨fs, hx⟩ : ∃ fs, x = .obj fs := by
    cases x <;> first | exact ⟨_, rfl⟩ | simp [jget] at hact
  subst hx
  have hea : isErrAction (.obj fs) = true := by
    simp [isErrAction, jgetD, hact, jStrIs]
  refine ⟨?_, ?_, ?_, ?_⟩
  · intro ht
    have hev : errVal (.obj fs) = .str "ERR_BN_LIMIT" := by
      simp [errVal, jgetD, ht, jTruthy]
    simp [processRecords, hea, hev, jStrIs]
  · intro hst ht
    have hev : errVal (.obj fs) = .str "ERR_CONVERSATION_LIMIT" := by
      simp [errVal, jgetD, ht, jTruthy]
    have h429 : statusIs429 (.obj fs) = true := by
      simp [statusIs429, hst]
    simp [processRecords, hea, hev, jStrIs, h429]
  · intro t hst ht ht1 ht2 ht3
    have hev : errVal (.obj fs) = .str t := by
      simp [errVal, jgetD, ht, jTruthy, bne_iff_ne, ht1]
    have h429 : statusIs429 (.obj fs) = true := by
      simp [statusIs429, hst]
    simp [processRecords, hea, hev, jStrIs, h429, ht2, ht3]
  · intro hbn hnot429
    simp [processRecords, hea, hbn, hnot429]

/-- Claim C5 (counterexample): on a ledger of three tokens, `reask(-1)` cuts
the ledger to its first two tokens (a Python negative slice), while
`reask(0)` empties it and re-handshakes; the claim that a negative
`turnIndex` rewinds exactly as index 0 does is false. -/
theorem negative_reask_not_clamped :
    (reask_question
        ⟨["a", "b", "c"],
          [⟨.user, "q1"⟩, ⟨.assistant, "a1"⟩, ⟨.user, "q2"⟩, ⟨.assistant, "a2"⟩,
            ⟨.user, "q3"⟩, ⟨.assistant, "a3"⟩]⟩
        (-1) ⟨200, "", some "H"⟩ 3 (fun _ => ⟨200, "data: [DONE]\n", some "T"⟩)).1.vqd =
      ["a", "b", "T"]
  ∧ (reask_question
        ⟨["a", "b", "c"],
          [⟨.user, "q1"⟩, ⟨.assistant, "a1"⟩, ⟨.user, "q2"⟩, ⟨.assistant, "a2"⟩,
            ⟨.user, "q3"⟩, ⟨.assistant, "a3"⟩]⟩
        0 ⟨200, "", some "H"⟩ 3 (fun _ => ⟨200, "data: [DONE]\n", some "T"⟩)).1.vqd =
      ["H", "T"]
  ∧ (["a", "b", "T"] : List String) ≠ ["H", "T"] :=
  ⟨rfl, rfl, by decide⟩

/-- Claim C5 (amended): the reask rewind index is clamped only from above:
for `0 ≤ turnIndex` the ledger is cut to `min turnIndex (len - 1)` entries,
while a negative `turnIndex` acts as a Python negative slice bound, keeping
`max 0 (len + turnIndex)` entries — not the rewind performed at index 0. -/
theorem rewind_clamped_above_only (vqd : List String) (num : Int) :
    (0 ≤ num → rewindVqd vqd num = vqd.take (min num.toNat (vqd.length - 1)))
  ∧ (num < 0 → rewindVqd vqd num = vqd.take ((vqd.length : Int) + num).toNat) := by
  constructor
  · intro h0
    unfold rewindVqd adjustNum pySliceTo
    rcases le_or_lt (vqd.length : Int) num with hge | hlt
    · rw [if_pos hge]
      by_cases hpos : (0 : Int) ≤ (vqd.length : Int) - 1
      · rw [if_pos hpos]
        congr 1
        omega
      · rw [if_neg hpos]
        congr 1
        omega
    · rw [if_neg (not_le.mpr hlt), if_pos h0]
      congr 1
      omega
  · intro hneg
    unfold rewindVqd adjustNum pySliceTo
    rw [if_neg (by omega), if_neg (by omega)]

/-- Witness for the amended C5 theorem at `turnIndex = 1` on a two-token
ledger. -/
theorem rewind_clamped_above_only_witness :
    rewindVqd ["a", "b"] 1 =
      (["a", "b"] : List String).take (min (1 : Int).toNat ((["a", "b"] : List String).length - 1)) :=
  (rewind_clamped_above_only ["a", "b"] 1).1 (by decide)

/-- Claim C8 (counterexample): a handshake response with status 429 whose
body is not decodable JSON raises the generic `DuckChatException` carrying
the raw body — not `RatelimitException` as the claim states (nothing is
appended to the ledger either way). -/
theorem handshake_429_undecodable_body :
    get_vqd ⟨[], []⟩ ⟨429, "garbage", none⟩ =
      (⟨[], []⟩, .error (.duckChat (.str "garbage")))
  ∧ (Except.error (PyError.duckChat (.str "garbage")) : Except PyError Unit) ≠
      .error (.ratelimit (.str "garbage")) :=
  ⟨rfl, fun h => PyError.noConfusion (Except.error.inj h)⟩

/-- Claim C8 (amended): the handshake raises `RatelimitException` on a 429
whose body decodes as a JSON object (with the object's `type` field as the
message), a generic `DuckChatException` with the raw body on a 429 whose body
does not decode as a JSON object, and `DuckChatException("No x-vqd-4")` on a
non-429 response without the token header; in all failure cases nothing is
appended to the ledger, and on success exactly the received token is
appended. -/
theorem get_vqd_outcomes (s : Session) (h : HandshakeResponse) :
    (h.status = 429 → ∀ fs, decodeJson h.body = some (.obj fs) →
        get_vqd s h = (s, .error (.ratelimit (jgetD (.obj fs) "type" (.str "")))))
  ∧ (h.status = 429 → (∀ fs, decodeJson h.body ≠ some (.obj fs)) →
        get_vqd s h = (s, .error (.duckChat (.str h.body))))
  ∧ (h.status ≠ 429 → h.vqdHeader = none →
        get_vqd s h = (s, .error (.duckChat (.str "No x-vqd-4"))))
  ∧ (h.status ≠ 429 → ∀ t, h.vqdHeader = some t →
        get_vqd s h = ({ s with vqd := s.vqd ++ [t] }, .ok ())) := by
  refine ⟨?_, ?_, ?_, ?_⟩
  · intro h429 fs hdec
    unfold get_vqd
    rw [if_pos (by simp [h429]), hdec]
  · intro h429 hdec
    unfold get_vqd
    rw [if_pos (by simp [h429])]
    cases hd : decodeJson h.body with
    | none => rfl
    | some j =>
      cases j with
      | obj fs => exact absurd hd (hdec fs)
      | _ => rfl
  · intro hne hhdr
    unfold get_vqd
    rw [if_neg (by simp [hne]), hhdr]
  · intro hne t hhdr
    unfold get_vqd
    rw [if_neg (by simp [hne]), hhdr]

/-- Witness for the amended C8 theorem: a successful handshake appends
exactly the received token. -/
theorem get_vqd_outcomes_witness :
    get_vqd ⟨[], []⟩ ⟨200, "", some "tok"⟩ =
      ({ (⟨[], []⟩ : Session) with vqd := [] ++ ["tok"] }, .ok ()) :=
  (get_vqd_outcomes ⟨[], []⟩ ⟨200, "", some "tok"⟩).2.2.2 (by decide) "tok" rfl

/-- Claim C9: reask on an empty history returns `""` in the buffered variant
and raises `GeneratorExit("There is no history messages")` in the streaming
variant, in both cases for every possible network environment — no handshake
and no turn request is consulted — leaving only the ledger slice performed
before the history check. -/
theorem reask_empty_history (s : Session) (num : Int) (hs : HandshakeResponse)
    (mr : Nat) (env : Nat → Response) (resp : StreamResponse)
    (hempty : s.messages = []) :
    reask_question s num hs mr env = ({ s with vqd := rewindVqd s.vqd num }, .ok "")
  ∧ reask_question_stream s num hs resp =
      ({ s with vqd := rewindVqd s.vqd num }, [],
        .error (.generatorExit "There is no history messages")) := by
  obtain ⟨vq, msgs⟩ := s
  have h2 : msgs = [] := hempty
  subst h2
  exact ⟨rfl, rfl⟩

/-- Witness for the C9 theorem on a concrete empty-history session. -/
theorem reask_empty_history_witness :
    reask_question ⟨["a", "b"], []⟩ 5 ⟨200, "", some "H"⟩ 1 (fun _ => ⟨200, "", none⟩) =
      (⟨["a"], []⟩, .ok "")
  ∧ reask_question_stream ⟨["a", "b"], []⟩ 5 ⟨200, "", some "H"⟩ ⟨200, "", [], none⟩ =
      (⟨["a"], []⟩, [], .error (.generatorExit "There is no history messages")) :=
  reask_empty_history ⟨["a", "b"], []⟩ 5 ⟨200, "", some "H"⟩ 1 (fun _ => ⟨200, "", none⟩)
    ⟨200, "", [], none⟩ rfl

/-- Witness for the C4 theorem: a status-429 record of type
`ERR_CONVERSATION_LIMIT` raises `ConversationLimitException`. -/
theorem error_record_classification_witness :
    processRecords
        [.obj [("action", .str "error"), ("status", .num 429),
          ("type", .str "ERR_CONVERSATION_LIMIT")]] [] =
      .fail (.conversationLimit (.str "ERR_CONVERSATION_LIMIT")) :=
  (error_record_classification
      (.obj [("action", .str "error"), ("status", .num 429),
        ("type", .str "ERR_CONVERSATION_LIMIT")]) [] [] rfl).2.1 rfl rfl

/-- Claim C1 (counterexample): a first `ask_question` on an empty ledger
returns normally but grows the ledger by two tokens (the handshake token and
the turn token), not by exactly one as the claim states. -/
theorem ask_first_turn_two_tokens :
    ask_question ⟨[], []⟩ "Q" 3 ⟨200, "", some "T0"⟩
        (fun _ => ⟨200, "data: [DONE]\n", some "T1"⟩) =
      (⟨["T0", "T1"], [⟨.user, "Q"⟩, ⟨.assistant, ""⟩]⟩, .ok "")
  ∧ (["T0", "T1"] : List String).length ≠ ([] : List String).length + 1 :=
  ⟨rfl, by decide⟩

/-- Claim C1 (amended): a normally returning `ask_question` grows the
history by exactly one user message followed by one assistant message,
preserving strict user/assistant alternation; the token ledger grows by
exactly one token when it was non-empty at entry, and by two (handshake
token plus turn token) when the call began with an empty ledger. -/
theorem ask_success_growth (s : Session) (q : String) (mr : Nat)
    (hs : HandshakeResponse) (env : Nat → Response) (s' : Session) (a : String)
    (hok : ask_question s q mr hs env = (s', .ok a)) :
    s'.messages = s.messages ++ [⟨.user, q⟩, ⟨.assistant, a⟩]
  ∧ (s.vqd ≠ [] → s'.vqd.length = s.vqd.length + 1)
  ∧ (s.vqd = [] → s'.vqd.length = 2)
  ∧ (alternating s.messages = true → s.messages.length % 2 = 0 →
      alternating s'.messages = true) := by
  have hmain :
      s'.messages = s.messages ++ [⟨.user, q⟩, ⟨.assistant, a⟩]
    ∧ (s.vqd ≠ [] → s'.vqd.length = s.vqd.length + 1)
    ∧ (s.vqd = [] → s'.vqd.length = 2) := by
    unfold ask_question at hok
    by_cases hv : s.vqd.isEmpty
    · rw [if_pos hv] at hok
      have hvnil : s.vqd = [] := List.isEmpty_iff.mp hv
      rcases hget : get_vqd s hs with ⟨s1, r1⟩
      rw [hget] at hok
      match r1, hok with
      | .error e, hok => simp at hok
      | .ok (), hok =>
        obtain ⟨t, ht, hs1⟩ := get_vqd_ok hget
        obtain ⟨t2, hres, hs', hvne⟩ := finishTurn_ok hok
        subst hs1
        subst hs'
        refine ⟨?_, ?_, ?_⟩
        · simp [add_input, add_answer, List.append_assoc]
        · intro hne
          exact absurd hvnil hne
        · intro _
          simp [add_input, add_answer, hvnil]
    · rw [if_neg hv] at hok
      have hvne : s.vqd ≠ [] := fun hnil => hv (by simp [hnil])
      obtain ⟨t, hres, hs', _⟩ := finishTurn_ok hok
      subst hs'
      refine ⟨?_, ?_, ?_⟩
      · simp [add_input, add_answer, List.append_assoc]
      · intro _
        simp [add_input, add_answer]
      · intro hnil
        exact absurd hnil hvne
  refine ⟨hmain.1, hmain.2.1, hmain.2.2, ?_⟩
  intro halt heven
  rw [hmain.1]
  exact alternating_append_pair halt heven

/-- Witness for the amended C1 theorem on a successful turn with a
one-token ledger. -/
theorem ask_success_growth_witness :
    (⟨["T0", "T1"], [⟨.user, "Q"⟩, ⟨.assistant, ""⟩]⟩ : Session).messages =
        (⟨["T0"], []⟩ : Session).messages ++ [⟨.user, "Q"⟩, ⟨.assistant, ""⟩]
  ∧ ((⟨["T0"], []⟩ : Session).vqd ≠ [] →
      (⟨["T0", "T1"], [⟨.user, "Q"⟩, ⟨.assistant, ""⟩]⟩ : Session).vqd.length =
        (⟨["T0"], []⟩ : Session).vqd.length + 1)
  ∧ ((⟨["T0"], []⟩ : Session).vqd = [] →
      (⟨["T0", "T1"], [⟨.user, "Q"⟩, ⟨.assistant, ""⟩]⟩ : Session).vqd.length = 2)
  ∧ (alternating (⟨["T0"], []⟩ : Session).messages = true →
      (⟨["T0"], []⟩ : Session).messages.length % 2 = 0 →
      alternating (⟨["T0", "T1"], [⟨.user, "Q"⟩, ⟨.assistant, ""⟩]⟩ : Session).messages = true) :=
  ask_success_growth ⟨["T0"], []⟩ "Q" 1 ⟨200, "", some "H"⟩
    (fun _ => ⟨200, "data: [DONE]\n", some "T1"⟩)
    ⟨["T0", "T1"], [⟨.user, "Q"⟩, ⟨.assistant, ""⟩]⟩ "" rfl

/-- Claim C2 (counterexample): when the single allowed attempt soft-blocks,
the call fails with the retries-exhausted `DuckChatException` and the ledger
is unchanged, but the history is NOT unchanged: it retains the user message
appended at the start of the call. -/
theorem soft_block_history_mutated :
    ask_question ⟨["T0"], []⟩ "Q" 1 ⟨200, "", some "H"⟩
        (fun _ =>
          ⟨200, "data: \x7b\"action\":\"error\",\"type\":\"ERR_BN_LIMIT\"\x7d\n\ndata: [DONE]\n",
            some "T"⟩) =
      (⟨["T0"], [⟨.user, "Q"⟩]⟩, .error (.duckChat (.str "ERR_BN_LIMIT after 1 attempts")))
  ∧ ([⟨.user, "Q"⟩] : List Message) ≠ ([] : List Message) :=
  ⟨rfl, by decide⟩

/-- Claim C2 (amended): when every attempt of a turn returns a soft block
(`ERR_BN_LIMIT`), the call fails with
`DuckChatException("ERR_BN_LIMIT after <max_retries> attempts")` and the
history has grown by exactly the one user message appended when the call
began; the token ledger is unchanged from before the call when it was
non-empty at entry, while a call that began with an empty ledger (and a
successful handshake) retains exactly the freshly acquired handshake token
in the ledger when the retries exhaust. -/
theorem soft_block_exhaustion_state (s : Session) (q : String) (mr : Nat)
    (hs : HandshakeResponse) (env : Nat → Response)
    (hsoft : ∀ i, i < mr → getAnswerStep (env i) = .softBlock) :
    (s.vqd ≠ [] →
      ask_question s q mr hs env =
        ({ s with messages := s.messages ++ [⟨.user, q⟩] },
          .error (.duckChat (.str ("ERR_BN_LIMIT after " ++ toString mr ++ " attempts")))))
  ∧ (∀ tok, s.vqd = [] → hs.status ≠ 429 → hs.vqdHeader = some tok →
      ask_question s q mr hs env =
        (⟨[tok], s.messages ++ [⟨.user, q⟩]⟩,
          .error (.duckChat (.str ("ERR_BN_LIMIT after " ++ toString mr ++ " attempts"))))) := by
  have hres :
      getAnswerResult mr env =
        .failure (.duckChat (.str ("ERR_BN_LIMIT after " ++ toString mr ++ " attempts"))) :=
    getAnswerLoop_soft mr env hsoft mr le_rfl
  constructor
  · intro hv
    unfold ask_question
    rw [if_neg (fun h => hv (List.isEmpty_iff.mp h))]
    have hfin :=
      finishTurn_fail (s := add_input s q) (by simpa [add_input] using hv) hres
    rw [hfin]
    rfl
  · intro tok hnil hst hhdr
    unfold ask_question
    rw [if_pos (by simp [hnil])]
    have hget : get_vqd s hs = ({ s with vqd := s.vqd ++ [tok] }, .ok ()) := by
      unfold get_vqd
      rw [if_neg (by simp [hst]), hhdr]
    rw [hget]
    show finishTurn (add_input { s with vqd := s.vqd ++ [tok] } q) mr env = _
    have hfin :=
      finishTurn_fail (s := add_input { s with vqd := s.vqd ++ [tok] } q)
        (by simp [add_input]) hres
    rw [hfin, hnil]
    rfl

/-- Witness for the amended C2 theorem: two soft-blocked attempts exhaust a
`max_retries = 2` call; a non-empty ledger is left unchanged with the history
grown by one user message, and an empty-ledger call is left holding exactly
the handshake token. -/
theorem soft_block_exhaustion_state_witness :
    ask_question ⟨["T0"], []⟩ "Q2" 2 ⟨200, "", some "H"⟩
        (fun _ =>
          ⟨200, "data: \x7b\"action\":\"error\",\"type\":\"ERR_BN_LIMIT\"\x7d\n\ndata: [DONE]\n",
            some "T"⟩) =
      (⟨["T0"], [⟨.user, "Q2"⟩]⟩,
        .error (.duckChat (.str "ERR_BN_LIMIT after 2 attempts")))
  ∧ ask_question ⟨[], []⟩ "Q2" 2 ⟨200, "", some "H"⟩
        (fun _ =>
          ⟨200, "data: \x7b\"action\":\"error\",\"type\":\"ERR_BN_LIMIT\"\x7d\n\ndata: [DONE]\n",
            some "T"⟩) =
      (⟨["H"], [⟨.user, "Q2"⟩]⟩,
        .error (.duckChat (.str "ERR_BN_LIMIT after 2 attempts"))) :=
  ⟨(soft_block_exhaustion_state ⟨["T0"], []⟩ "Q2" 2 ⟨200, "", some "H"⟩
      (fun _ =>
        ⟨200, "data: \x7b\"action\":\"error\",\"type\":\"ERR_BN_LIMIT\"\x7d\n\ndata: [DONE]\n",
          some "T"⟩)
      (fun i _ => rfl)).1 (by decide),
    (soft_block_exhaustion_state ⟨[], []⟩ "Q2" 2 ⟨200, "", some "H"⟩
      (fun _ =>
        ⟨200, "data: \x7b\"action\":\"error\",\"type\":\"ERR_BN_LIMIT\"\x7d\n\ndata: [DONE]\n",
          some "T"⟩)
      (fun i _ => rfl)).2 "H" rfl (by decide) rfl⟩

/-- Claim C6: `reask(0)` on a non-empty conversation empties the ledger, so
a fresh handshake is performed and the turn is re-sent from a state whose
history is exactly the original first message and whose ledger is exactly
the fresh handshake token; when that turn succeeds, the final history is the
first message followed by the new answer, and the ledger is the fresh
handshake token followed by the newly issued turn token. -/
theorem reask_zero_fresh_start (s : Session) (m0 : Message) (rest : List Message)
    (hs : HandshakeResponse) (mr : Nat) (env : Nat → Response) (tok : String)
    (hmsg : s.messages = m0 :: rest) (hst : hs.status ≠ 429)
    (hhdr : hs.vqdHeader = some tok) :
    reask_question s 0 hs mr env = finishTurn ⟨[tok], [m0]⟩ mr env
  ∧ (∀ s' a, reask_question s 0 hs mr env = (s', .ok a) →
      s'.messages = [m0, ⟨.assistant, a⟩] ∧ ∃ t, s'.vqd = [tok, t]) := by
  obtain ⟨vq, msgs⟩ := s
  have h2 : msgs = m0 :: rest := hmsg
  subst h2
  have hget :
      get_vqd ⟨rewindVqd vq 0, m0 :: rest⟩ hs =
        (⟨rewindVqd vq 0 ++ [tok], m0 :: rest⟩, .ok ()) := by
    unfold get_vqd
    rw [if_neg (by simp [hst]), hhdr]
  have hfirst : reask_question ⟨vq, m0 :: rest⟩ 0 hs mr env = finishTurn ⟨[tok], [m0]⟩ mr env := by
    show (match (⟨rewindVqd vq 0, m0 :: rest⟩ : Session).messages with
      | [] => ((⟨rewindVqd vq 0, m0 :: rest⟩ : Session), Except.ok "")
      | m0' :: _ =>
        if (⟨rewindVqd vq 0, m0 :: rest⟩ : Session).vqd.isEmpty then
          match get_vqd (⟨rewindVqd vq 0, m0 :: rest⟩ : Session) hs with
          | (s2, .error e) => (s2, .error e)
          | (s2, .ok ()) => finishTurn { s2 with messages := [m0'] } mr env
        else
          finishTurn
            { (⟨rewindVqd vq 0, m0 :: rest⟩ : Session) with
                messages :=
                  pySliceTo (m0 :: rest)
                    (min (adjustNum vq.length 0)
                        ((rewindVqd vq 0).length : Int) * 2 - 1) }
            mr env) = finishTurn ⟨[tok], [m0]⟩ mr env
    rw [rewindVqd_zero] at hget ⊢
    simp only [List.isEmpty_nil, if_true, hget, List.nil_append]
  refine ⟨hfirst, ?_⟩
  intro s' a hok
  rw [hfirst] at hok
  obtain ⟨t, _, hs', _⟩ := finishTurn_ok hok
  subst hs'
  exact ⟨rfl, t, rfl⟩

/-- Witness for the C6 theorem on a concrete two-message conversation. -/
theorem reask_zero_fresh_start_witness :
    reask_question ⟨["x"], [⟨.user, "q"⟩, ⟨.assistant, "r"⟩]⟩ 0 ⟨200, "", some "H"⟩ 1
        (fun _ => ⟨200, "data: [DONE]\n", some "T"⟩) =
      finishTurn ⟨["H"], [⟨.user, "q"⟩]⟩ 1 (fun _ => ⟨200, "data: [DONE]\n", some "T"⟩)
  ∧ (∀ s' a,
      reask_question ⟨["x"], [⟨.user, "q"⟩, ⟨.assistant, "r"⟩]⟩ 0 ⟨200, "", some "H"⟩ 1
          (fun _ => ⟨200, "data: [DONE]\n", some "T"⟩) = (s', .ok a) →
        s'.messages = [⟨.user, "q"⟩, ⟨.assistant, a⟩] ∧ ∃ t, s'.vqd = ["H", t]) :=
  reask_zero_fresh_start ⟨["x"], [⟨.user, "q"⟩, ⟨.assistant, "r"⟩]⟩ ⟨.user, "q"⟩
    [⟨.assistant, "r"⟩] ⟨200, "", some "H"⟩ 1
    (fun _ => ⟨200, "data: [DONE]\n", some "T"⟩) "H" rfl (by decide) rfl

/-- Claim C7 (counterexample): the streaming framer yields the `message`
text of a successfully decoded `action: error` record to the caller as
content, and raises no typed error for it — the stream completes normally
and renews the token. -/
theorem stream_error_record_yielded :
    stream_answer ⟨["t0"], []⟩
        ⟨200, "",
          ["data: \x7b\"action\":\"error\",\"message\":\"oops\"\x7d".toList,
            "data: [DONE]".toList],
          some "T"⟩ =
      (⟨["t0", "T"], []⟩, [.str "oops"], .ok ()) :=
  rfl

/-- Claim C7 (amended): the streaming framer yields the `message` value of
every decoded object record whose `message` field is truthy, regardless of
any `action: error` field; the streaming path performs no error
classification on decoded records. -/
theorem stream_yields_any_truthy_message (chunk : List Char)
    (fs : List (String × Json)) (v : Json)
    (hdone : "[DONE]".toList.isPrefixOf chunk = false)
    (hdec : decodeJsonL chunk = some (.obj fs))
    (hmsg : jget (.obj fs) "message" = some v)
    (htr : jTruthy v = true) :
    processLine ("data: ".toList ++ chunk) = .yieldVal v := by
  unfold processLine
  rw [if_pos (isPrefixOf_append_self _ _)]
  have hdrop : ("data: ".toList ++ chunk).drop 6 = chunk :=
    List.drop_left "data: ".toList chunk
  rw [hdrop, if_neg (by rw [hdone]; exact Bool.false_ne_true), hdec]
  show (match jget (Json.obj fs) "message" with
    | some w => if jTruthy w = true then StreamEv.yieldVal w else StreamEv.skip
    | none => StreamEv.skip) = StreamEv.yieldVal v
  rw [hmsg]
  simp [htr]

/-- Witness for the amended C7 theorem on a concrete error record carrying a
truthy message. -/
theorem stream_yields_any_truthy_message_witness :
    processLine
        ("data: ".toList ++ "\x7b\"action\":\"error\",\"message\":\"oops\"\x7d".toList) =
      .yieldVal (.str "oops") :=
  stream_yields_any_truthy_message
    "\x7b\"action\":\"error\",\"message\":\"oops\"\x7d".toList
    [("action", .str "error"), ("message", .str "oops")] (.str "oops")
    rfl rfl rfl rfl

/-- Claim C10: a successful turn whose responses all lack the `x-vqd-4`
header appends the empty string to the token ledger — the ledger still grows
by exactly one entry, and `self.vqd[-1]` for the next turn is `""` rather
than a local failure; the streaming variant appends the same defaulted empty
token on completion. -/
theorem missing_header_appends_empty_token
    (s s' t u : Session) (mr : Nat) (env : Nat → Response) (a : String)
    (resp : StreamResponse) (ys : List Json)
    (hhdr : ∀ i, (env i).vqdHeader = none)
    (hrun : get_answer s mr env = (s', .ok a))
    (hrh : resp.vqdHeader = none)
    (hstream : stream_answer t resp = (u, ys, .ok ())) :
    s'.vqd = s.vqd ++ [""] ∧ s'.vqd.getLast? = some "" ∧ u.vqd = t.vqd ++ [""] := by
  obtain ⟨tk, hres, hs', _⟩ := get_answer_ok hrun
  obtain ⟨i, hstep⟩ := getAnswerLoop_success hres
  have htk : tk = (env i).vqdHeader.getD "" := getAnswerStep_success_tok hstep
  rw [hhdr i] at htk
  have h1 : s'.vqd = s.vqd ++ [""] := by
    rw [hs']
    simp [htk]
  refine ⟨h1, ?_, ?_⟩
  · rw [h1]
    exact getLast?_append_single _ _
  · rw [stream_answer_ok hstream, hrh]
    rfl

/-- Witness for the C10 theorem: both turn variants append `""` when the
header is missing. -/
theorem missing_header_appends_empty_token_witness :
    (⟨["T0", ""], []⟩ : Session).vqd = (⟨["T0"], []⟩ : Session).vqd ++ [""]
  ∧ (⟨["T0", ""], []⟩ : Session).vqd.getLast? = some ""
  ∧ (⟨["z", ""], []⟩ : Session).vqd = (⟨["z"], []⟩ : Session).vqd ++ [""] :=
  missing_header_appends_empty_token ⟨["T0"], []⟩ ⟨["T0", ""], []⟩ ⟨["z"], []⟩
    ⟨["z", ""], []⟩ 1 (fun _ => ⟨200, "data: [DONE]\n", none⟩) ""
    ⟨200, "", ["data: [DONE]".toList], none⟩ []
    (fun _ => rfl) rfl rfl rfl

end DuckChatModel
